import Mathlib

/-!
Verification of the Robson CLI router (src/main.c).

The source is a thin C router: `translate_legacy_flag` maps five legacy
flags to modern subcommand names, and `main` either prints a banner
(when no user argument is given) or builds a fresh argument vector and
replaces the process image with the external `robson-go` binary.

The embedding below mirrors the C code:
  * C strings passed in `argv` are Lean `String`s.
  * A `char*` cell of the new vector may hold the C null pointer, so a
    cell value is `CStr := Option String` (`none` models `NULL`).
  * `malloc`ed memory is uninitialized, so a slot of the allocated
    vector is `Option CStr` (`none` models an uninitialized slot), and
    every store goes through `writeSlot`, which performs an explicit
    bounds check; an out-of-bounds store returns `Option.none` for the
    whole construction (modelling undefined behavior).
  * `execvp` and `malloc` outcomes are environment choices, modelled by
    the booleans `allocOk` and `execOk`.
-/

namespace Robson

/-- A C `char*` value: `none` is the null pointer. -/
abbrev CStr := Option String

/-- One slot of a freshly `malloc`ed vector: `none` is uninitialized. -/
abbrev Slot := Option CStr

/-- A store `v[i] = x` with an explicit bounds check: out of bounds is
undefined behavior, modelled as failure of the whole construction. -/
def writeSlot (v : List Slot) (i : Nat) (x : CStr) : Option (List Slot) :=
  if i < v.length then some (v.set i (some x)) else none

/-- `translate_legacy_flag` from src/main.c lines 21-28: the chain of
`strcmp` tests, `NULL` (here `none`) when no translation applies. -/
def translate_legacy_flag (arg : String) : Option String :=
  if arg = "--help" then some "help"
  else if arg = "--report" then some "report"
  else if arg = "--say" then some "say"
  else if arg = "--buy" then some "buy"
  else if arg = "--sell" then some "sell"
  else none

/-- The copy loop `for (int i = ...; i < argc; i++) new_argv[i] = argv[i];`
from src/main.c (lines 52-54 and 58-60), with the bounds-checked store. -/
def copyLoop (argv : List String) (v : List Slot) (i stop : Nat) :
    Option (List Slot) :=
  if _ : i < stop then
    match writeSlot v i (some (argv.getD i "")) with
    | some v2 => copyLoop argv v2 (i + 1) stop
    | none => none
  else
    some v
termination_by stop - i
decreasing_by simp_wf; omega

/-- Construction of `new_argv` in src/main.c lines 39-62, after a
successful `malloc` of `argc + 1` slots: write the delegate name at
index 0, then either the translated subcommand at index 1 followed by
the originals from index 2, or all originals from index 1, and the
`NULL` terminator at index `argc`. -/
def buildNewArgv (argv : List String) : Option (List Slot) :=
  (writeSlot (List.replicate (argv.length + 1) none) 0 (some "robson-go")).bind
    fun v1 =>
      match translate_legacy_flag (argv.getD 1 "") with
      | some t =>
          (writeSlot v1 1 (some t)).bind fun v2 =>
            (copyLoop argv v2 2 argv.length).bind fun v3 =>
              writeSlot v3 argv.length none
      | none =>
          (copyLoop argv v1 1 argv.length).bind fun v2 =>
            writeSlot v2 argv.length none

/-- The delegated vector as a plain list of `char*` values: delegate
name, translated-or-passthrough user arguments, `NULL` terminator. -/
def delegatedVector (argv : List String) : List CStr :=
  match translate_legacy_flag (argv.getD 1 "") with
  | some t =>
      some "robson-go" :: some t :: ((argv.drop 2).map some ++ [none])
  | none =>
      some "robson-go" :: ((argv.drop 1).map some ++ [none])

/-- What the process ends as: a normal exit with a code, or a successful
`execvp` replacing the image with `prog` running on `args`. -/
inductive RunResult where
  | exited (code : Nat)
  | replaced (prog : String) (args : List Slot)
deriving DecidableEq

/-- Observable outcome of one invocation: final result, lines printed to
stdout and stderr, the delegated vector if one was built, and whether
`free` was called on it. -/
structure Outcome where
  result : RunResult
  stdout : List String
  stderr : List String
  built : Option (List Slot)
  freed : Bool
deriving DecidableEq

/-- `main` from src/main.c lines 30-72. `allocOk` models whether
`malloc` succeeds, `execOk` whether `execvp` finds an executable
`robson-go` (on success `execvp` never returns). The stderr line for a
failed `execvp` stands for the `perror` output, whose errno suffix is
operating-system state. -/
def robsonMain (allocOk execOk : Bool) (argv : List String) : Outcome :=
  if argv.length < 2 then
    { result := .exited 0
      stdout := ["Welcome to Robson 0.01",
                 "Usage: robson <subcommand> [options]",
                 "Try: robson help"]
      stderr := []
      built := none
      freed := false }
  else if allocOk = false then
    { result := .exited 1
      stdout := []
      stderr := ["Memory allocation failed"]
      built := none
      freed := false }
  else
    match buildNewArgv argv with
    | none =>
        { result := .exited 2
          stdout := []
          stderr := ["undefined behavior: out-of-bounds store"]
          built := none
          freed := false }
    | some w =>
        if execOk then
          { result := .replaced "robson-go" w
            stdout := []
            stderr := []
            built := some w
            freed := false }
        else
          { result := .exited 1
            stdout := []
            stderr := ["Failed to execute robson-go",
                       "Make sure robson-go is installed and in your PATH"]
            built := some w
            freed := true }

/-- Outcome of the Legacy Dispatcher variant: lines printed, the screen
procedure invoked (if any), and the exit code. -/
structure DispatchOutcome where
  stdout : List String
  screen : Option String
  exitCode : Nat
deriving DecidableEq

/-- Modelled from the spec: the Legacy Dispatcher variant of the entry
point is not among the provided source files; per the spec it compares
the first user argument against the five literal flags in order,
invokes the bound `rbs_openscreen_*` procedure on a match, prints a
welcome line when no argument is given, and otherwise prints an
"invalid argument" message echoing the token; no branch sets a failure
exit code. -/
def legacyDispatcher (argv : List String) : DispatchOutcome :=
  if argv.length < 2 then
    { stdout := ["Welcome to Robson 0.01"], screen := none, exitCode := 0 }
  else
    let a := argv.getD 1 ""
    if a = "--help" then
      { stdout := [], screen := some "rbs_openscreen_help", exitCode := 0 }
    else if a = "--report" then
      { stdout := [], screen := some "rbs_openscreen_report", exitCode := 0 }
    else if a = "--say" then
      { stdout := [], screen := some "rbs_openscreen_say", exitCode := 0 }
    else if a = "--buy" then
      { stdout := [], screen := some "rbs_openscreen_buy", exitCode := 0 }
    else if a = "--sell" then
      { stdout := [], screen := some "rbs_openscreen_sell", exitCode := 0 }
    else
      { stdout := ["invalid argument: " ++ a], screen := none, exitCode := 0 }

/-! ### Helper lemmas -/

/-- Pointwise description of the copy loop: it succeeds whenever the
bound is within the vector, filling slots `i ≤ j < stop` with
`argv[j]` and leaving all other slots unchanged. -/
lemma copyLoop_spec (argv : List String) :
    ∀ (n : Nat) (v : List Slot) (i stop : Nat), stop - i ≤ n → stop ≤ v.length →
    ∃ w, copyLoop argv v i stop = some w ∧ w.length = v.length ∧
      ∀ j, w[j]? =
        if i ≤ j ∧ j < stop then some (some (some (argv.getD j ""))) else v[j]? := by
  intro n
  induction n with
  | zero =>
    intro v i stop hn hle
    have hns : ¬ i < stop := by omega
    rw [copyLoop, dif_neg hns]
    refine ⟨v, rfl, rfl, ?_⟩
    intro j
    have hc : ¬ (i ≤ j ∧ j < stop) := by omega
    simp [hc]
  | succ n ih =>
    intro v i stop hn hle
    by_cases hlt : i < stop
    · have hiv : i < v.length := by omega
      rw [copyLoop, dif_pos hlt]
      simp only [writeSlot, if_pos hiv]
      obtain ⟨w, hw, hlen, hget⟩ :=
        ih (v.set i (some (some (argv.getD i "")))) (i + 1) stop (by omega)
          (by rw [List.length_set]; exact hle)
      refine ⟨w, hw, by rw [hlen, List.length_set], ?_⟩
      intro j
      rw [hget j, List.getElem?_set]
      by_cases hj1 : j < stop
      · by_cases hj2 : i = j
        · subst hj2
          have t1 : ¬ (i + 1 ≤ i ∧ i < stop) := by omega
          have t2 : i ≤ i ∧ i < stop := ⟨le_refl i, hlt⟩
          simp [t1, t2, hiv]
        · by_cases hj3 : i ≤ j
          · have t1 : i + 1 ≤ j ∧ j < stop := by omega
            have t2 : i ≤ j ∧ j < stop := by omega
            simp [t1, t2]
          · have t1 : ¬ (i + 1 ≤ j ∧ j < stop) := by omega
            have t2 : ¬ (i ≤ j ∧ j < stop) := by omega
            simp [t1, t2, hj2]
      · have t1 : ¬ (i + 1 ≤ j ∧ j < stop) := by omega
        have t2 : ¬ (i ≤ j ∧ j < stop) := by omega
        have hj2 : i ≠ j := by omega
        simp [t1, t2, hj2]
    · rw [copyLoop, dif_neg hlt]
      refine ⟨v, rfl, rfl, ?_⟩
      intro j
      have hc : ¬ (i ≤ j ∧ j < stop) := by omega
      simp [hc]

/-- Pointwise description of the passthrough-shaped delegated vector. -/
lemma mapSome_pass_getElem (argv : List String) (h2 : 2 ≤ argv.length) (j : Nat) :
    (List.map some ((some "robson-go" :: ((argv.drop 1).map some ++ [none])) :
        List CStr))[j]? =
    (if j = 0 then some (some (some "robson-go"))
     else if j < argv.length then some (some (some (argv.getD j "")))
     else if j = argv.length then some (some none)
     else none) := by
  by_cases hj0 : j = 0
  · subst hj0; simp
  · by_cases hjl : j < argv.length
    · have h1 : 1 ≤ j := by omega
      have hj1 : j - 1 < ((argv.drop 1).map some).length := by
        simp [List.length_map, List.length_drop]; omega
      have hidx : 1 + (j - 1) = j := by omega
      have hgd : argv.getD j "" = argv[j] := List.getD_eq_getElem argv "" hjl
      have hc : j - 1 < argv.length - 1 := by omega
      have hidx2 : j - 1 + 1 = j := by omega
      simp [List.getElem?_cons, hj0, List.getElem?_append, hj1, List.getElem?_map,
        List.getElem?_drop, hidx, hidx2, hc, List.getElem?_eq_getElem hjl, hgd, hjl]
    · by_cases hje : j = argv.length
      · subst hje
        have hj1 : ¬ (argv.length - 1 < ((argv.drop 1).map some).length) := by
          simp [List.length_map, List.length_drop]
        have hne : argv.length ≠ 0 := by omega
        simp [List.getElem?_cons, hne, List.getElem?_append, hj1, List.length_map,
          List.length_drop, show argv.length - 1 - (argv.length - 1) = 0 from by omega]
      · have hj1 : ¬ (j - 1 < ((argv.drop 1).map some).length) := by
          simp [List.length_map, List.length_drop]; omega
        have hne : j - 1 - (argv.length - 1) ≠ 0 := by omega
        simp [List.getElem?_cons, hj0, List.getElem?_append, hj1, List.length_map,
          List.length_drop, hne, hjl, hje]
        omega

/-- Pointwise description of the translated-shaped delegated vector. -/
lemma mapSome_trans_getElem (argv : List String) (t : String) (h2 : 2 ≤ argv.length)
    (j : Nat) :
    (List.map some ((some "robson-go" :: some t :: ((argv.drop 2).map some ++ [none])) :
        List CStr))[j]? =
    (if j = 0 then some (some (some "robson-go"))
     else if j = 1 then some (some (some t))
     else if j < argv.length then some (some (some (argv.getD j "")))
     else if j = argv.length then some (some none)
     else none) := by
  by_cases hj0 : j = 0
  · subst hj0; simp
  · by_cases hj1 : j = 1
    · subst hj1; simp
    · by_cases hjl : j < argv.length
      · have h1 : 2 ≤ j := by omega
        have hc : j - 2 < argv.length - 2 := by omega
        have hidx2 : j - 2 + 2 = j := by omega
        have hgd : argv.getD j "" = argv[j] := List.getD_eq_getElem argv "" hjl
        simp [List.getElem?_cons, hj0, hj1, List.getElem?_append, List.length_map,
          List.length_drop, List.getElem?_map, List.getElem?_drop,
          show j - 1 - 1 = j - 2 from by omega, show j - 1 ≠ 0 from by omega, hc, hidx2,
          show 2 + (j - 2) = j from by omega, List.getElem?_eq_getElem hjl, hgd, hjl]
      · by_cases hje : j = argv.length
        · subst hje
          have hne : argv.length ≠ 0 := by omega
          have hne1 : argv.length ≠ 1 := by omega
          simp [List.getElem?_cons, hne, hne1, List.getElem?_append, List.length_map,
            List.length_drop, show argv.length - 1 - 1 = argv.length - 2 from by omega,
            show argv.length - 1 ≠ 0 from by omega,
            show ¬ (argv.length - 2 < argv.length - 2) from by omega,
            show argv.length - 2 - (argv.length - 2) = 0 from by omega]
        · simp [List.getElem?_cons, hj0, hj1, List.getElem?_append, List.length_map,
            List.length_drop, show j - 1 ≠ 0 from by omega,
            show j - 1 - 1 = j - 2 from by omega,
            show ¬ (j - 2 < argv.length - 2) from by omega,
            show j - 2 - (argv.length - 2) ≠ 0 from by omega, hjl, hje]

/-- With at least one user argument, the slot-level construction of
`new_argv` succeeds and produces exactly the delegated vector. -/
lemma buildNewArgv_eq (argv : List String) (h2 : 2 ≤ argv.length) :
    buildNewArgv argv = some ((delegatedVector argv).map some) := by
  have hv0 : (List.replicate (argv.length + 1) (none : Slot)).length
      = argv.length + 1 := by simp
  have hw0 : writeSlot (List.replicate (argv.length + 1) none) 0 (some "robson-go")
      = some ((List.replicate (argv.length + 1) (none : Slot)).set 0
          (some (some "robson-go"))) := by
    rw [writeSlot, if_pos (by omega)]
  have hv1 : ((List.replicate (argv.length + 1) (none : Slot)).set 0
      (some (some "robson-go"))).length = argv.length + 1 := by
    rw [List.length_set, hv0]
  rcases htr : translate_legacy_flag (argv.getD 1 "") with _ | t
  · obtain ⟨w, hw, hlen, hget⟩ :=
      copyLoop_spec argv argv.length
        ((List.replicate (argv.length + 1) (none : Slot)).set 0
          (some (some "robson-go"))) 1 argv.length (by omega) (by omega)
    have hwN : writeSlot w argv.length none
        = some (w.set argv.length (some none)) := by
      rw [writeSlot, if_pos (by omega)]
    rw [buildNewArgv, hw0, Option.some_bind]
    simp only [htr, hw, Option.some_bind, hwN]
    congr 1
    simp only [delegatedVector, htr]
    apply List.ext_getElem?
    intro j
    rw [List.getElem?_set, hget j, List.getElem?_set,
      mapSome_pass_getElem argv h2 j]
    have hwlen : w.length = argv.length + 1 := by rw [hlen, hv1]
    by_cases hj0 : j = 0
    · subst hj0
      simp [show argv.length ≠ 0 from by omega,
        show ¬ (1 ≤ 0 ∧ (0 : Nat) < argv.length) from by omega]
    · by_cases hjl : j < argv.length
      · have hmid : 1 ≤ j ∧ j < argv.length := by omega
        simp [show argv.length ≠ j from by omega, hmid, hj0, hjl]
      · by_cases hje : j = argv.length
        · subst hje
          simp [hwlen, hj0, hjl]
        · simp [show argv.length ≠ j from by omega,
            show ¬ (1 ≤ j ∧ j < argv.length) from by omega,
            show (0 : Nat) ≠ j from by omega, List.getElem?_replicate,
            show ¬ (j < argv.length + 1) from by omega, hj0, hjl, hje]
  · have hw1 : writeSlot ((List.replicate (argv.length + 1) (none : Slot)).set 0
        (some (some "robson-go"))) 1 (some t)
        = some (((List.replicate (argv.length + 1) (none : Slot)).set 0
            (some (some "robson-go"))).set 1 (some (some t))) := by
      rw [writeSlot, if_pos (by omega)]
    have hv2 : (((List.replicate (argv.length + 1) (none : Slot)).set 0
        (some (some "robson-go"))).set 1 (some (some t))).length
        = argv.length + 1 := by
      rw [List.length_set, hv1]
    obtain ⟨w, hw, hlen, hget⟩ :=
      copyLoop_spec argv argv.length
        (((List.replicate (argv.length + 1) (none : Slot)).set 0
          (some (some "robson-go"))).set 1 (some (some t))) 2 argv.length
        (by omega) (by omega)
    have hwN : writeSlot w argv.length none
        = some (w.set argv.length (some none)) := by
      rw [writeSlot, if_pos (by omega)]
    rw [buildNewArgv, hw0, Option.some_bind]
    simp only [htr, hw1, Option.some_bind, hw, hwN]
    congr 1
    simp only [delegatedVector, htr]
    apply List.ext_getElem?
    intro j
    rw [List.getElem?_set, hget j, List.getElem?_set, List.getElem?_set,
      mapSome_trans_getElem argv t h2 j]
    have hwlen : w.length = argv.length + 1 := by
      rw [hlen, List.length_set, hv1]
    by_cases hj0 : j = 0
    · subst hj0
      simp [show argv.length ≠ 0 from by omega,
        show ¬ (2 ≤ 0 ∧ (0 : Nat) < argv.length) from by omega,
        show (1 : Nat) ≠ 0 from by omega]
    · by_cases hj1 : j = 1
      · subst hj1
        have hnil : argv ≠ [] := by
          intro h
          rw [h] at h2
          simp at h2
        simp [show argv.length ≠ 1 from by omega,
          show ¬ (2 ≤ 1 ∧ (1 : Nat) < argv.length) from by omega, hv1, hnil]
      · by_cases hjl : j < argv.length
        · have hmid : 2 ≤ j ∧ j < argv.length := by omega
          simp [show argv.length ≠ j from by omega, hmid, hj0, hj1, hjl]
        · by_cases hje : j = argv.length
          · subst hje
            simp [hwlen, hj0, hj1, hjl]
          · simp [show argv.length ≠ j from by omega,
              show ¬ (2 ≤ j ∧ j < argv.length) from by omega,
              show (1 : Nat) ≠ j from by omega, show (0 : Nat) ≠ j from by omega,
              List.getElem?_replicate,
              show ¬ (j < argv.length + 1) from by omega, hj0, hj1, hjl, hje]

/-- The delegated vector has one slot per original argument plus the
terminator. -/
lemma delegatedVector_length (argv : List String) (h2 : 2 ≤ argv.length) :
    (delegatedVector argv).length = argv.length + 1 := by
  rw [delegatedVector]
  rcases translate_legacy_flag (argv.getD 1 "") with _ | t <;>
    simp [List.length_drop] <;> omega

/-- The delegated vector never depends on the invocation name. -/
lemma delegatedVector_cons_irrel (a b : String) (rest : List String) :
    delegatedVector (a :: rest) = delegatedVector (b :: rest) := by
  rw [delegatedVector, delegatedVector]
  simp only [List.getD_cons_succ, List.drop_succ_cons]

/-! ### Claims -/

/-- C1: for every argument vector with at least two elements the Router
builds a delegated vector headed by "robson-go"; a translated first user
argument is placed at position one with the remaining originals from
position two, otherwise all originals follow from position one; the
vector ends with the null terminator. In particular
["robson","--buy","AAPL","10"] yields ["robson-go","buy","AAPL","10",NULL]
and ["robson","status"] yields ["robson-go","status",NULL]. -/
theorem spec_C1_router_builds_delegated_vector :
    (∀ argv : List String, 2 ≤ argv.length →
      (∀ t, translate_legacy_flag (argv.getD 1 "") = some t →
        buildNewArgv argv =
          some (((some "robson-go" :: some t :: ((argv.drop 2).map some ++ [none])) :
            List CStr).map some)) ∧
      (translate_legacy_flag (argv.getD 1 "") = none →
        buildNewArgv argv =
          some (((some "robson-go" :: ((argv.drop 1).map some ++ [none])) :
            List CStr).map some))) ∧
    buildNewArgv ["robson", "--buy", "AAPL", "10"] =
      some [some (some "robson-go"), some (some "buy"), some (some "AAPL"),
        some (some "10"), some none] ∧
    buildNewArgv ["robson", "status"] =
      some [some (some "robson-go"), some (some "status"), some none] := by
  refine ⟨?_, ?_, ?_⟩
  · intro argv h2
    constructor
    · intro t ht
      rw [buildNewArgv_eq argv h2]
      simp only [delegatedVector, ht]
    · intro ht
      rw [buildNewArgv_eq argv h2]
      simp only [delegatedVector, ht]
  · rw [buildNewArgv_eq _ (by decide)]
    rfl
  · rw [buildNewArgv_eq _ (by decide)]
    rfl

/-- Witness for C1 at the concrete input ["robson","--sell","ETH"]. -/
theorem spec_C1_router_builds_delegated_vector_witness :
    buildNewArgv ["robson", "--sell", "ETH"] =
      some [some (some "robson-go"), some (some "sell"), some (some "ETH"),
        some none] := by
  have h := (spec_C1_router_builds_delegated_vector.1
    ["robson", "--sell", "ETH"] (by decide)).1 "sell" (by decide)
  simpa using h

/-- C2: the translator maps exactly the five legacy flags to their bare
subcommands and returns no translation on every other string. -/
theorem spec_C2_translator_exact_mapping :
    (translate_legacy_flag "--help" = some "help" ∧
     translate_legacy_flag "--report" = some "report" ∧
     translate_legacy_flag "--say" = some "say" ∧
     translate_legacy_flag "--buy" = some "buy" ∧
     translate_legacy_flag "--sell" = some "sell") ∧
    ∀ s : String,
      s ∉ (["--help", "--report", "--say", "--buy", "--sell"] : List String) →
      translate_legacy_flag s = none := by
  refine ⟨⟨rfl, rfl, rfl, rfl, rfl⟩, ?_⟩
  intro s hs
  simp only [List.mem_cons, List.not_mem_nil, or_false, not_or] at hs
  obtain ⟨h1, h2, h3, h4, h5⟩ := hs
  simp [translate_legacy_flag, h1, h2, h3, h4, h5]

/-- Witness for C2: the already-modern name "help" gets no translation. -/
theorem spec_C2_translator_exact_mapping_witness :
    translate_legacy_flag "help" = none :=
  spec_C2_translator_exact_mapping.2 "help" (by decide)

/-- C3: with fewer than two argument-vector elements the Router prints
the banner and exits 0, building no vector and attempting no process
replacement. -/
theorem spec_C3_no_args_banner (allocOk execOk : Bool) (argv : List String)
    (h : argv.length < 2) :
    robsonMain allocOk execOk argv =
      { result := .exited 0
        stdout := ["Welcome to Robson 0.01",
                   "Usage: robson <subcommand> [options]",
                   "Try: robson help"]
        stderr := []
        built := none
        freed := false } := by
  rw [robsonMain, if_pos h]

/-- Witness for C3 at the concrete input ["robson"]. -/
theorem spec_C3_no_args_banner_witness :
    robsonMain true true ["robson"] =
      { result := .exited 0
        stdout := ["Welcome to Robson 0.01",
                   "Usage: robson <subcommand> [options]",
                   "Try: robson help"]
        stderr := []
        built := none
        freed := false } :=
  spec_C3_no_args_banner true true ["robson"] (by decide)

/-- C4: when process replacement fails the Router reports the system
error naming the binary plus a hint on stderr, frees the delegated
vector, and exits 1; nothing else is reachable after the replacement
call. -/
theorem spec_C4_exec_failure_path (argv : List String) (h2 : 2 ≤ argv.length) :
    robsonMain true false argv =
      { result := .exited 1
        stdout := []
        stderr := ["Failed to execute robson-go",
                   "Make sure robson-go is installed and in your PATH"]
        built := some ((delegatedVector argv).map some)
        freed := true } := by
  rw [robsonMain, if_neg (by omega)]
  simp [buildNewArgv_eq argv h2]

/-- Witness for C4 at the concrete input ["robson","status"]. -/
theorem spec_C4_exec_failure_path_witness :
    robsonMain true false ["robson", "status"] =
      { result := .exited 1
        stdout := []
        stderr := ["Failed to execute robson-go",
                   "Make sure robson-go is installed and in your PATH"]
        built := some [some (some "robson-go"), some (some "status"), some none]
        freed := true } := by
  have h := spec_C4_exec_failure_path ["robson", "status"] (by decide)
  simpa [delegatedVector, translate_legacy_flag] using h

/-- C5: the delegated vector is allocated with argc + 1 slots (its
constructed length is argc + 1), and allocation failure is reported on
stderr and exits 1 with no delegation. -/
theorem spec_C5_alloc_size_and_failure :
    (∀ (execOk : Bool) (argv : List String), 2 ≤ argv.length →
      robsonMain false execOk argv =
        { result := .exited 1
          stdout := []
          stderr := ["Memory allocation failed"]
          built := none
          freed := false }) ∧
    ∀ (argv : List String) (w : List Slot), 2 ≤ argv.length →
      buildNewArgv argv = some w → w.length = argv.length + 1 := by
  constructor
  · intro execOk argv h2
    rw [robsonMain, if_neg (by omega)]
    rfl
  · intro argv w h2 hw
    rw [buildNewArgv_eq argv h2] at hw
    injection hw with hw
    rw [← hw, List.length_map, delegatedVector_length argv h2]

/-- Witness for C5 at the concrete input ["robson","--buy","AAPL","10"]. -/
theorem spec_C5_alloc_size_and_failure_witness :
    robsonMain false true ["robson", "--buy", "AAPL", "10"] =
      { result := .exited 1
        stdout := []
        stderr := ["Memory allocation failed"]
        built := none
        freed := false } :=
  spec_C5_alloc_size_and_failure.1 true ["robson", "--buy", "AAPL", "10"] (by decide)

/-- C6: the translator is total and deterministic. In this model the
function takes only the argument string, so it can consult neither
argument position nor any other state, and it has no effects. -/
theorem spec_C6_translator_pure :
    ∀ s : String, (∃ r : Option String, translate_legacy_flag s = r) ∧
      ∀ s' : String, s' = s → translate_legacy_flag s' = translate_legacy_flag s := by
  intro s
  exact ⟨⟨translate_legacy_flag s, rfl⟩, fun s' h => by rw [h]⟩

/-- Witness for C6 at the concrete input "--buy". -/
theorem spec_C6_translator_pure_witness :
    translate_legacy_flag "--buy" = translate_legacy_flag "--buy" :=
  (spec_C6_translator_pure "--buy").2 "--buy" rfl

/-- C7: the Legacy Dispatcher variant (modelled from the spec, since its
source is not among the provided files) exits 0 on every input — the
"invalid argument" branch reports the token but never changes the exit
status. -/
theorem spec_C7_dispatcher_always_exit_zero :
    ∀ argv : List String, (legacyDispatcher argv).exitCode = 0 := by
  intro argv
  simp only [legacyDispatcher]
  split_ifs <;> rfl

/-- C8: translation applies only to the first user argument: with three
or more argument-vector elements, every argument at position two or
later reaches the delegated vector verbatim, legacy flag or not. -/
theorem spec_C8_tail_args_verbatim (argv : List String) (w : List Slot) (j : Nat)
    (h3 : 3 ≤ argv.length) (hw : buildNewArgv argv = some w)
    (hj2 : 2 ≤ j) (hjl : j < argv.length) :
    w[j]? = some (some (some (argv.getD j ""))) := by
  have h2 : 2 ≤ argv.length := by omega
  rw [buildNewArgv_eq argv h2] at hw
  injection hw with hw
  rw [← hw]
  rcases htr : translate_legacy_flag (argv.getD 1 "") with _ | t
  · rw [delegatedVector, htr, mapSome_pass_getElem argv h2 j]
    simp [show j ≠ 0 from by omega, hjl]
  · rw [delegatedVector, htr, mapSome_trans_getElem argv t h2 j]
    simp [show j ≠ 0 from by omega, show j ≠ 1 from by omega, hjl]

/-- Witness for C8: a trailing "--sell" is not rewritten. -/
theorem spec_C8_tail_args_verbatim_witness :
    buildNewArgv ["robson", "--buy", "--sell"] =
      some [some (some "robson-go"), some (some "buy"), some (some "--sell"),
        some none] ∧
    [some (some "robson-go"), some (some "buy"), some (some "--sell"),
        some none][2]? = some (some (some "--sell")) := by
  have hb : buildNewArgv ["robson", "--buy", "--sell"] =
      some [some (some "robson-go"), some (some "buy"), some (some "--sell"),
        some none] := by
    rw [buildNewArgv_eq _ (by decide)]
    rfl
  refine ⟨hb, ?_⟩
  have h := spec_C8_tail_args_verbatim ["robson", "--buy", "--sell"] _ 2
    (by decide) hb (by decide) (by decide)
  simp only [List.getD] at h
  exact h

/-- C9: with at least two argument-vector elements every store made
while building the delegated vector passes its bounds check against the
argc + 1 allocated slots, so the out-of-bounds (undefined behavior)
branch is unreachable and the construction succeeds. -/
theorem spec_C9_writes_in_bounds (argv : List String) (h2 : 2 ≤ argv.length) :
    (buildNewArgv argv).isSome = true := by
  rw [buildNewArgv_eq argv h2]
  rfl

/-- Witness for C9 at the concrete input ["robson","help","me"]. -/
theorem spec_C9_writes_in_bounds_witness :
    (buildNewArgv ["robson", "help", "me"]).isSome = true :=
  spec_C9_writes_in_bounds ["robson", "help", "me"] (by decide)

/-- C10: observable behavior never depends on the invocation name: two
argument vectors differing only in their first element produce identical
outcomes (same delegated vector, same printed lines, same exit
status). -/
theorem spec_C10_argv0_independence (a b : String) (rest : List String)
    (allocOk execOk : Bool) :
    robsonMain allocOk execOk (a :: rest) = robsonMain allocOk execOk (b :: rest) := by
  by_cases hlen : (a :: rest).length < 2
  · have hlen' : (b :: rest).length < 2 := by simpa using hlen
    rw [robsonMain, if_pos hlen, robsonMain, if_pos hlen']
  · have h2 : 2 ≤ (a :: rest).length := by omega
    have h2' : 2 ≤ (b :: rest).length := by simpa using h2
    have hlen' : ¬ (b :: rest).length < 2 := by simpa using hlen
    rw [robsonMain, if_neg hlen, robsonMain, if_neg hlen']
    rcases allocOk with _ | _
    · rfl
    · simp only [buildNewArgv_eq _ h2, buildNewArgv_eq _ h2',
        delegatedVector_cons_irrel a b rest]

end Robson
